import Mathlib

set_option maxRecDepth 100000

/-!
Verification of the GStreamer decoder module of fluster
(src/fluster/decoders/gstreamer.py).

The module declares a family of decoder descriptors (class-attribute
records), a pipeline-string builder polymorphic over the GStreamer API
family (1.0 vs 0.10), a decode operation that runs the pipeline through an
external process runner and checksums the output file, and a memoized
availability check.  Collaborators that live outside the translated file
(the Codec/PixelFormat enums, the process runner, the file checksum, the
command normalizer, the registration hook) are modelled from the spec and
are explicitly marked as such.
-/

/-- Modelled from the spec: the Codec enum of fluster.codec is not under
src/.  The spec's data model lists codecs such as H264 and H265 whose
textual values appear in the derived decoder names. -/
inductive Codec where
  | h264
  | h265
deriving DecidableEq

/-- Modelled from the spec: the textual value of a codec, as interpolated
into decoder names and descriptions. -/
def Codec.value : Codec → String
  | .h264 => "H264"
  | .h265 => "H265"

/-- Modelled from the spec: the PixelFormat enum of fluster.codec is not
under src/.  The spec requires a total mapping from the abstract output
format to the tool's native format token (a planar-YUV identifier such as
I420). -/
inductive PixelFormat where
  | i420
  | nv12
deriving DecidableEq

/-- Modelled from the spec: PixelFormat.to_gst, the native-token
translation required by the version-family-A builder. -/
def PixelFormat.to_gst : PixelFormat → String
  | .i420 => "I420"
  | .nv12 => "NV12"

/-- Modelled from the spec: normalize_binary_cmd of fluster.utils is not
under src/.  The spec's pipeline examples show the configured command
appearing verbatim as the first word of the generated pipeline, so the
normalizer is modelled as the identity on the command string. -/
def normalize_binary_cmd (cmd : String) : String := cmd

/-- Which gen_pipeline implementation a decoder class inherits: GStreamer10
overrides gen_pipeline, GStreamer010 inherits the base implementation. -/
inductive GstFamily where
  | gst10
  | gst010
deriving DecidableEq

/-- The class attributes a concrete decoder class declares (directly or via
its GStreamer10 / GStreamer010 base class). -/
structure ClassAttrs where
  codec : Codec
  decoder_bin : String
  cmd : String
  caps : String
  gst_api : String
  api : String
  provider : String
  hw_acceleration : Bool
  family : GstFamily
deriving DecidableEq

/-- A constructed decoder instance: the class attributes plus the fields
set by GStreamer.__init__. -/
structure GstDecoder where
  codec : Codec
  decoder_bin : String
  cmd : String
  caps : String
  gst_api : String
  api : String
  provider : String
  hw_acceleration : Bool
  family : GstFamily
  name : String
  description : String
deriving DecidableEq

/-- GStreamer.__init__: derives name and description from the class
attributes and normalizes the command. -/
def initDecoder (a : ClassAttrs) : GstDecoder :=
  { codec := a.codec
    decoder_bin := a.decoder_bin
    cmd := normalize_binary_cmd a.cmd
    caps := a.caps
    gst_api := a.gst_api
    api := a.api
    provider := a.provider
    hw_acceleration := a.hw_acceleration
    family := a.family
    name := a.provider ++ "-" ++ a.codec.value ++ "-" ++ a.api ++ "-Gst" ++ a.gst_api
    description := a.provider ++ " " ++ a.codec.value ++ " " ++ a.api ++
      " decoder for GStreamer " ++ a.gst_api }

/-- PIPELINE_TPL: the str.format template, as explicit concatenation of its
literal segments with the five interpolated arguments. -/
def PIPELINE_TPL (cmd input dbin caps output : String) : String :=
  cmd ++ " filesrc location=" ++ input ++ " ! " ++ dbin ++ " ! " ++ caps ++
    " ! filesink location=" ++ output

/-- GStreamer.gen_pipeline: the base-class builder, inherited by the
GStreamer 0.10 decoders; the output format argument is unused. -/
def GstDecoder.gen_pipeline_base (d : GstDecoder) (input_filepath output_filepath : String)
    (_output_format : PixelFormat) : String :=
  PIPELINE_TPL d.cmd input_filepath d.decoder_bin d.caps output_filepath

/-- GStreamer10.gen_pipeline: extends the caps with a videoconvert stage
and the requested output format's native token. -/
def GstDecoder.gen_pipeline_10 (d : GstDecoder) (input_filepath output_filepath : String)
    (output_format : PixelFormat) : String :=
  let caps := d.caps ++ " ! videoconvert dither=none ! video/x-raw,format=" ++
    output_format.to_gst
  PIPELINE_TPL d.cmd input_filepath d.decoder_bin caps output_filepath

/-- Dynamic dispatch of gen_pipeline by the decoder's class family. -/
def GstDecoder.gen_pipeline (d : GstDecoder) (i o : String) (f : PixelFormat) : String :=
  match d.family with
  | .gst10 => d.gen_pipeline_10 i o f
  | .gst010 => d.gen_pipeline_base i o f

/-- GStreamer10 base-class attributes; a subclass supplies codec,
decoder_bin, api, the hardware-acceleration flag and the provider. -/
def mkGst10 (codec : Codec) (dbin api : String) (hw : Bool) (prov : String) : ClassAttrs :=
  { codec := codec, decoder_bin := dbin, cmd := "gst-launch-1.0", caps := "video/x-raw"
    gst_api := "1.0", api := api, provider := prov, hw_acceleration := hw
    family := .gst10 }

/-- GStreamer010 base-class attributes; a subclass supplies codec,
decoder_bin, api, the hardware-acceleration flag and the provider. -/
def mkGst010 (codec : Codec) (dbin api : String) (hw : Bool) (prov : String) : ClassAttrs :=
  { codec := codec, decoder_bin := dbin, cmd := "gst-launch-0.10", caps := "video/x-raw-yuv"
    gst_api := "0.10", api := api, provider := prov, hw_acceleration := hw
    family := .gst010 }

def GStreamerLibavH264 : GstDecoder :=
  initDecoder (mkGst10 .h264 " h264parse ! avdec_h264 " "Libav" false "GStreamer")

def GStreamerLibavH265 : GstDecoder :=
  initDecoder (mkGst10 .h265 " h265parse ! avdec_h265 " "Libav" false "GStreamer")

def GStreamerVaapiH265Gst10Decoder : GstDecoder :=
  initDecoder (mkGst10 .h265 " h265parse ! vaapih265dec " "VAAPI" true "GStreamer")

def GStreamerMsdkH265Gst10Decoder : GstDecoder :=
  initDecoder (mkGst10 .h265 " h265parse ! msdkh265dec " "MSDK" true "GStreamer")

def GStreamerNvdecH265Gst10Decoder : GstDecoder :=
  initDecoder (mkGst10 .h265 " h265parse ! nvh265dec " "NVDEC" true "GStreamer")

def GStreamerD3d11H265Gst10Decoder : GstDecoder :=
  initDecoder (mkGst10 .h265 " h265parse ! d3d11h265dec " "D3D11" true "GStreamer")

def GStreamerVaapiH264Gst10Decoder : GstDecoder :=
  initDecoder (mkGst10 .h264 " h264parse ! vaapih264dec " "VAAPI" true "GStreamer")

def GStreamerMsdkH264Gst10Decoder : GstDecoder :=
  initDecoder (mkGst10 .h264 " h264parse ! msdkh264dec " "MSDK" true "GStreamer")

def GStreamerNvdecH264Gst10Decoder : GstDecoder :=
  initDecoder (mkGst10 .h264 " h264parse ! nvh264dec " "NVDEC" true "GStreamer")

def GStreamerD3d11H264Gst10Decoder : GstDecoder :=
  initDecoder (mkGst10 .h264 " h264parse ! d3d11h264dec " "D3D11" true "GStreamer")

def FluendoH265Gst10Decoder : GstDecoder :=
  initDecoder (mkGst10 .h265 " h265parse ! fluh265dec " "SW" false "Fluendo")

def FluendoH265Gst010Decoder : GstDecoder :=
  initDecoder (mkGst010 .h265 " h265parse ! fluh265dec " "SW" false "Fluendo")

def FluendoH264Gst10Decoder : GstDecoder :=
  initDecoder (mkGst10 .h264 " h264parse ! fluh264dec " "SW" false "Fluendo")

def FluendoH264Gst010Decoder : GstDecoder :=
  initDecoder (mkGst010 .h264 " fluh264dec " "SW" false "Fluendo")

def FluendoH264VAGst10Decoder : GstDecoder :=
  initDecoder (mkGst10 .h264 " h264parse ! fluvadec " "HW" true "Fluendo")

def FluendoH265VAGst10Decoder : GstDecoder :=
  initDecoder (mkGst10 .h265 " h265parse ! fluvadec " "HW" true "Fluendo")

/-- Modelled from the spec: the register_decoder hook of fluster.decoder is
not under src/; the spec describes a process-wide write-once collection
populated in registration (declaration) order. -/
def registry : List GstDecoder :=
  [GStreamerLibavH264, GStreamerLibavH265, GStreamerVaapiH265Gst10Decoder,
   GStreamerMsdkH265Gst10Decoder, GStreamerNvdecH265Gst10Decoder,
   GStreamerD3d11H265Gst10Decoder, GStreamerVaapiH264Gst10Decoder,
   GStreamerMsdkH264Gst10Decoder, GStreamerNvdecH264Gst10Decoder,
   GStreamerD3d11H264Gst10Decoder, FluendoH265Gst10Decoder,
   FluendoH265Gst010Decoder, FluendoH264Gst10Decoder, FluendoH264Gst010Decoder,
   FluendoH264VAGst10Decoder, FluendoH265VAGst10Decoder]

/-- The descriptor of claim C1: command tool-1.0, the Libav H.264 decoder
fragment with its leading and trailing space padding, caps video/x-raw,
built through GStreamer.__init__ as a version-family-A (GStreamer 1.0)
decoder. -/
def c1Descriptor : GstDecoder :=
  initDecoder
    { codec := .h264, decoder_bin := " h264parse ! avdec_h264 ", cmd := "tool-1.0"
      caps := "video/x-raw", gst_api := "1.0", api := "Libav", provider := "GStreamer"
      hw_acceleration := false, family := .gst10 }

/-- C1 counterexample: the version-family-A builder does not return the
single-spaced string the claim asserts, because the template's separators
concatenate with the fragment's own space padding, yielding two spaces on
each side of the decoder fragment. -/
theorem c1_gen_pipeline_counterexample :
    c1Descriptor.gen_pipeline "in.bin" "out.raw" .i420 ≠
      "tool-1.0 filesrc location=in.bin ! h264parse ! avdec_h264 ! video/x-raw ! videoconvert dither=none ! video/x-raw,format=I420 ! filesink location=out.raw" := by
  decide

/-- C1 (amended): the version-family-A builder on the claim's descriptor
and inputs returns exactly the pipeline string with two spaces on each side
of the padded decoder fragment. -/
theorem c1_gen_pipeline_exact :
    c1Descriptor.gen_pipeline "in.bin" "out.raw" .i420 =
      "tool-1.0 filesrc location=in.bin !  h264parse ! avdec_h264  ! video/x-raw ! videoconvert dither=none ! video/x-raw,format=I420 ! filesink location=out.raw" := by
  decide

/-- C7: the derived names of the sixteen registered decoder descriptors are
pairwise distinct. -/
theorem registry_names_unique : (registry.map GstDecoder.name).Nodup := by
  decide

/-- C8: for every decoder descriptor built by GStreamer.__init__, the name
is provider-codec-api-GstApiVersion and the description is
provider codec api decoder for GStreamer apiVersion. -/
theorem initDecoder_name_description (a : ClassAttrs) :
    (initDecoder a).name =
      (initDecoder a).provider ++ "-" ++ (initDecoder a).codec.value ++ "-" ++
        (initDecoder a).api ++ "-Gst" ++ (initDecoder a).gst_api ∧
    (initDecoder a).description =
      (initDecoder a).provider ++ " " ++ (initDecoder a).codec.value ++ " " ++
        (initDecoder a).api ++ " decoder for GStreamer " ++ (initDecoder a).gst_api :=
  ⟨rfl, rfl⟩

/-- C9: gen_pipeline is deterministic and a function of the descriptor
fields it reads (command, decoder fragment, caps, class family) and its
three arguments alone: two descriptors agreeing on those fields generate
byte-identical pipelines, and repeating a call yields the identical
string. -/
theorem gen_pipeline_pure (d d' : GstDecoder) (i o : String) (f : PixelFormat)
    (hcmd : d.cmd = d'.cmd) (hbin : d.decoder_bin = d'.decoder_bin)
    (hcaps : d.caps = d'.caps) (hfam : d.family = d'.family) :
    d.gen_pipeline i o f = d.gen_pipeline i o f ∧
    d.gen_pipeline i o f = d'.gen_pipeline i o f := by
  refine ⟨rfl, ?_⟩
  unfold GstDecoder.gen_pipeline GstDecoder.gen_pipeline_10 GstDecoder.gen_pipeline_base
    PIPELINE_TPL
  rw [hcmd, hbin, hcaps, hfam]

/-- C9 witness: the purity theorem applied to the first registered decoder
against a copy of itself at concrete inputs. -/
theorem gen_pipeline_pure_witness :
    GStreamerLibavH264.gen_pipeline "in.bin" "out.raw" .i420 =
      GStreamerLibavH264.gen_pipeline "in.bin" "out.raw" .i420 :=
  (gen_pipeline_pure GStreamerLibavH264 GStreamerLibavH264 "in.bin" "out.raw" .i420
    rfl rfl rfl rfl).2

/-- Whitespace characters recognized by the Python shlex lexer (its
whitespace attribute: space, tab, carriage return, line feed). -/
def isShWs (c : Char) : Bool :=
  c = ' ' || c = '\t' || c = '\r' || c = '\n'

/-- Lexer modes of the POSIX shell word lexer: outside quotes, after an
escape character, inside single quotes, inside double quotes, and after an
escape character inside double quotes. -/
inductive LexMode where
  | norm
  | esc
  | single
  | double
  | dblEsc
deriving DecidableEq

/-- State of the shell word lexer: current mode, the word accumulated so
far (none when between words), and the completed words in order. -/
structure LexState where
  mode : LexMode
  acc : Option (List Char)
  out : List (List Char)
deriving DecidableEq

/-- One step of the POSIX shell word lexer, following Python shlex in POSIX
mode: whitespace ends the current word; quotes group; a backslash escapes
the next character, and inside double quotes it escapes only a double quote
or another backslash. -/
def lexStep (s : LexState) (c : Char) : LexState :=
  match s.mode with
  | .norm =>
    if isShWs c then
      match s.acc with
      | some w => { mode := .norm, acc := none, out := s.out ++ [w] }
      | none => s
    else if c = '\'' then { mode := .single, acc := some (s.acc.getD []), out := s.out }
    else if c = '"' then { mode := .double, acc := some (s.acc.getD []), out := s.out }
    else if c = '\\' then { mode := .esc, acc := s.acc, out := s.out }
    else { mode := .norm, acc := some (s.acc.getD [] ++ [c]), out := s.out }
  | .esc => { mode := .norm, acc := some (s.acc.getD [] ++ [c]), out := s.out }
  | .single =>
    if c = '\'' then { mode := .norm, acc := s.acc, out := s.out }
    else { mode := .single, acc := some (s.acc.getD [] ++ [c]), out := s.out }
  | .double =>
    if c = '"' then { mode := .norm, acc := s.acc, out := s.out }
    else if c = '\\' then { mode := .dblEsc, acc := s.acc, out := s.out }
    else { mode := .double, acc := some (s.acc.getD [] ++ [c]), out := s.out }
  | .dblEsc =>
    if c = '"' || c = '\\' then
      { mode := .double, acc := some (s.acc.getD [] ++ [c]), out := s.out }
    else { mode := .double, acc := some (s.acc.getD [] ++ ['\\', c]), out := s.out }

/-- Run the lexer over a character list from a given state. -/
def lexRun (s : LexState) (l : List Char) : LexState := l.foldl lexStep s

/-- Initial lexer state. -/
def lexInit : LexState := { mode := .norm, acc := none, out := [] }

/-- Finish lexing: flush the last word; an open quote or dangling escape at
end of input is an error, as in Python shlex POSIX mode. -/
def lexFinish (s : LexState) : Except String (List String) :=
  match s.mode with
  | .norm =>
    match s.acc with
    | some w => .ok ((s.out ++ [w]).map fun w => String.mk w)
    | none => .ok (s.out.map fun w => String.mk w)
  | .esc => .error "No escaped character"
  | .dblEsc => .error "No escaped character"
  | .single => .error "No closing quotation"
  | .double => .error "No closing quotation"

/-- shlex.split of the Python standard library in POSIX mode, used by
decode and check to turn the pipeline string into an argv token list. -/
def shlexSplit (s : String) : Except String (List String) :=
  lexFinish (lexRun lexInit s.data)

instance {ε α : Type} [DecidableEq ε] [DecidableEq α] : DecidableEq (Except ε α) := fun x y =>
  match x, y with
  | .error a, .error b =>
    match decEq a b with
    | .isTrue h => .isTrue (h ▸ rfl)
    | .isFalse h => .isFalse fun hc => h (Except.error.inj hc)
  | .ok a, .ok b =>
    match decEq a b with
    | .isTrue h => .isTrue (h ▸ rfl)
    | .isFalse h => .isFalse fun hc => h (Except.ok.inj hc)
  | .error _, .ok _ => .isFalse fun hc => Except.noConfusion hc
  | .ok _, .error _ => .isFalse fun hc => Except.noConfusion hc

example : shlexSplit "a  b" = .ok ["a", "b"] := by decide

example : shlexSplit "cmd filesrc location=in.bin !  x  ! sink" =
    .ok ["cmd", "filesrc", "location=in.bin", "!", "x", "!", "sink"] := by decide

/-- Error kinds of the decode and check paths, following the spec's error
taxonomy for the external collaborators. -/
inductive GErr where
  | timeoutError
  | processError
  | ioError
  | valueError
deriving DecidableEq

/-- A file-system snapshot: maps a path to the byte contents of the file
there, if one exists. -/
def FileSystem : Type := String → Option (List Nat)

/-- Modelled from the spec: file_checksum of fluster.utils is not under
src/; the spec treats it as an injectable hash over the output file's
bytes, failing with an IOError when the file is absent or unreadable. -/
def file_checksum (hash : List Nat → String) (fs : FileSystem) (path : String) :
    Except GErr String :=
  match fs path with
  | some bytes => .ok (hash bytes)
  | none => .error .ioError

/-- GStreamer.decode: generate the pipeline, split it into argv tokens, run
the external process with the timeout (the runner is modelled from the spec
as an injectable collaborator transforming the file system or failing), and
checksum the output file.  Every error propagates unchanged. -/
def GstDecoder.decode (d : GstDecoder) (hash : List Nat → String)
    (run_command : List String → Nat → Bool → FileSystem → Except GErr FileSystem)
    (fs : FileSystem) (input_filepath output_filepath : String)
    (output_format : PixelFormat) (timeout : Nat) (verbose : Bool) :
    Except GErr String :=
  match shlexSplit (d.gen_pipeline input_filepath output_filepath output_format) with
  | .error _ => .error .valueError
  | .ok argv =>
    match run_command argv timeout verbose fs with
    | .error e => .error e
    | .ok fs2 => file_checksum hash fs2 output_filepath

/-- C3: when the process runner signals a timeout, decode propagates the
TimeoutError, and the checksum function is never consulted: the result is
the timeout error and is the same for any two hash functions. -/
theorem decode_timeout_no_checksum (d : GstDecoder)
    (run_command : List String → Nat → Bool → FileSystem → Except GErr FileSystem)
    (fs : FileSystem) (i o : String) (f : PixelFormat) (t : Nat) (v : Bool)
    (argv : List String)
    (hsplit : shlexSplit (d.gen_pipeline i o f) = .ok argv)
    (hrun : run_command argv t v fs = .error .timeoutError) :
    (∀ hash, d.decode hash run_command fs i o f t v = .error .timeoutError) ∧
    ∀ hash1 hash2, d.decode hash1 run_command fs i o f t v =
      d.decode hash2 run_command fs i o f t v := by
  have h : ∀ hash, d.decode hash run_command fs i o f t v = .error .timeoutError := by
    intro hash
    simp only [GstDecoder.decode, hsplit, hrun]
  exact ⟨h, fun h1 h2 => (h h1).trans (h h2).symm⟩

/-- C3 witness: the Libav H.264 decoder with a runner that always times
out; decode returns the timeout error for a concrete hash function. -/
theorem decode_timeout_no_checksum_witness :
    GStreamerLibavH264.decode (fun _ => "deadbeef")
      (fun _ _ _ _ => .error .timeoutError) (fun _ => none)
      "in.bin" "out.raw" .i420 5 false = .error .timeoutError :=
  (decode_timeout_no_checksum GStreamerLibavH264
    (fun _ _ _ _ => .error .timeoutError) (fun _ => none)
    "in.bin" "out.raw" .i420 5 false
    ["gst-launch-1.0", "filesrc", "location=in.bin", "!", "h264parse", "!",
     "avdec_h264", "!", "video/x-raw", "!", "videoconvert", "dither=none", "!",
     "video/x-raw,format=I420", "!", "filesink", "location=out.raw"]
    (by decide) rfl).1 (fun _ => "deadbeef")

/-- C5: when the process run succeeds and leaves bytes at the output path,
decode returns exactly the injected hash applied to those bytes. -/
theorem decode_returns_checksum (d : GstDecoder) (hash : List Nat → String)
    (run_command : List String → Nat → Bool → FileSystem → Except GErr FileSystem)
    (fs fs2 : FileSystem) (i o : String) (f : PixelFormat) (t : Nat) (v : Bool)
    (argv : List String) (bytes : List Nat)
    (hsplit : shlexSplit (d.gen_pipeline i o f) = .ok argv)
    (hrun : run_command argv t v fs = .ok fs2)
    (hfile : fs2 o = some bytes) :
    d.decode hash run_command fs i o f t v = .ok (hash bytes) := by
  simp only [GstDecoder.decode, hsplit, hrun, file_checksum, hfile]

/-- C5 witness: a fake runner that always succeeds and writes the fixed
byte sequence 1, 2, 3 to the output path; decode returns the checksum of
exactly that sequence, here a decimal byte-sum hash evaluating to 6. -/
theorem decode_returns_checksum_witness :
    GStreamerLibavH264.decode (fun l => toString l.sum)
      (fun _ _ _ fs => .ok (fun p => if p = "out.raw" then some [1, 2, 3] else fs p))
      (fun _ => none) "in.bin" "out.raw" .i420 5 false = .ok "6" :=
  decode_returns_checksum GStreamerLibavH264 (fun l => toString l.sum)
    (fun _ _ _ fs => .ok (fun p => if p = "out.raw" then some [1, 2, 3] else fs p))
    (fun _ => none) (fun p => if p = "out.raw" then some [1, 2, 3] else none)
    "in.bin" "out.raw" .i420 5 false
    ["gst-launch-1.0", "filesrc", "location=in.bin", "!", "h264parse", "!",
     "avdec_h264", "!", "video/x-raw", "!", "videoconvert", "dither=none", "!",
     "video/x-raw,format=I420", "!", "filesink", "location=out.raw"]
    [1, 2, 3] (by decide) rfl (by decide)

/-- The probe command check normalizes: gst-launch- followed by the
GStreamer API version of the decoder. -/
def probeCmd (d : GstDecoder) : String := "gst-launch-" ++ d.gst_api

/-- The minimal probe pipeline check builds: a zero-buffer source feeding
the decoder fragment into a null sink. -/
def probePipeline (d : GstDecoder) (binary : String) : String :=
  binary ++ " appsrc num-buffers=0 ! " ++ d.decoder_bin ++ " ! fakesink"

/-- The body of GStreamer.check without the lru_cache decorator: the try
block runs command normalization, pipeline splitting and the external
process (a stateful injectable runner, modelled from the spec), and any
failure of any of those steps is converted to false; success yields true.
The runner state threads through so a spy can count invocations. -/
def GstDecoder.checkRun {σ : Type} (d : GstDecoder)
    (normalize : String → Except GErr String)
    (run_command : List String → Bool → σ → Except GErr Unit × σ)
    (verbose : Bool) (st : σ) : Bool × σ :=
  match normalize (probeCmd d) with
  | .error _ => (false, st)
  | .ok binary =>
    match shlexSplit (probePipeline d binary) with
    | .error _ => (false, st)
    | .ok argv =>
      match run_command argv verbose st with
      | (.error _, st2) => (false, st2)
      | (.ok _, st2) => (true, st2)

/-- C4: check never raises: it is a total boolean function, and it returns
true exactly when command normalization, pipeline splitting and the process
run all succeed — so any error in any step yields false rather than an
exception. -/
theorem check_errors_to_false {σ : Type} (d : GstDecoder)
    (normalize : String → Except GErr String)
    (run_command : List String → Bool → σ → Except GErr Unit × σ)
    (v : Bool) (st : σ) :
    (d.checkRun normalize run_command v st).1 = true ↔
      ∃ binary argv st2, normalize (probeCmd d) = .ok binary ∧
        shlexSplit (probePipeline d binary) = .ok argv ∧
        run_command argv v st = (.ok (), st2) := by
  constructor
  · intro h
    unfold GstDecoder.checkRun at h
    cases hn : normalize (probeCmd d) with
    | error e => simp [hn] at h
    | ok binary =>
      cases hs : shlexSplit (probePipeline d binary) with
      | error e => simp [hn, hs] at h
      | ok argv =>
        cases hr : run_command argv v st with
        | mk res st2 =>
          cases res with
          | error e => simp [hn, hs, hr] at h
          | ok u => exact ⟨binary, argv, st2, rfl, hs, by rw [hr]⟩
  · rintro ⟨binary, argv, st2, hn, hs, hr⟩
    unfold GstDecoder.checkRun
    simp [hn, hs, hr]

/-- The availability cache of the lru_cache decorator on check, keyed by
the verbose flag (the descriptor instance itself is the other key
component; the cache here is the one attached to a single descriptor). -/
def CheckCache : Type := List (Bool × Bool)

/-- GStreamer.check with its lru_cache decorator: a cache hit returns the
memoized boolean without touching the runner; a miss runs the probe once
and stores the result under the verbosity key. -/
def GstDecoder.check {σ : Type} (d : GstDecoder)
    (normalize : String → Except GErr String)
    (run_command : List String → Bool → σ → Except GErr Unit × σ)
    (verbose : Bool) (cache : CheckCache) (st : σ) : Bool × CheckCache × σ :=
  match List.lookup verbose cache with
  | some b => (b, cache, st)
  | none =>
    match d.checkRun normalize run_command verbose st with
    | (b, st2) => (b, (verbose, b) :: cache, st2)

/-- C6: check is memoized per verbosity: with a spy runner that counts its
invocations, a first call whose verbosity is not in the cache invokes the
runner exactly once, and a second call with the same verbosity returns the
cached boolean and leaves the cache and the spy count unchanged. -/
theorem check_memoized (d : GstDecoder)
    (normalize : String → Except GErr String)
    (runBase : List String → Bool → Except GErr Unit) (v : Bool)
    (cache : CheckCache) (n : Nat) (binary : String) (argv : List String)
    (hmiss : List.lookup v cache = none)
    (hnorm : normalize (probeCmd d) = .ok binary)
    (hsplit : shlexSplit (probePipeline d binary) = .ok argv) :
    (d.check normalize (fun a w m => (runBase a w, m + 1)) v cache n).2.2 = n + 1 ∧
    d.check normalize (fun a w m => (runBase a w, m + 1)) v
        (d.check normalize (fun a w m => (runBase a w, m + 1)) v cache n).2.1
        (d.check normalize (fun a w m => (runBase a w, m + 1)) v cache n).2.2 =
      ((d.check normalize (fun a w m => (runBase a w, m + 1)) v cache n).1,
       (d.check normalize (fun a w m => (runBase a w, m + 1)) v cache n).2.1,
       (d.check normalize (fun a w m => (runBase a w, m + 1)) v cache n).2.2) := by
  have hrun : d.checkRun normalize (fun a w m => (runBase a w, m + 1)) v n =
      ((match runBase argv v with | .error _ => false | .ok _ => true), n + 1) := by
    unfold GstDecoder.checkRun
    simp only [hnorm, hsplit]
    cases runBase argv v <;> rfl
  have h1 : d.check normalize (fun a w m => (runBase a w, m + 1)) v cache n =
      ((match runBase argv v with | .error _ => false | .ok _ => true),
       (v, (match runBase argv v with | .error _ => false | .ok _ => true)) :: cache,
       n + 1) := by
    unfold GstDecoder.check
    rw [hmiss, hrun]
  refine ⟨by rw [h1], ?_⟩
  rw [h1]
  unfold GstDecoder.check
  simp [List.lookup]

/-- C6 witness: the Libav H.264 decoder with identity normalization and an
always-succeeding runner, starting from an empty cache and spy count zero:
the first call performs one runner invocation and the second call is a pure
cache hit. -/
theorem check_memoized_witness :
    (GStreamerLibavH264.check (fun s => .ok s)
        (fun _ _ m => ((.ok () : Except GErr Unit), m + 1)) true [] 0).2.2 = 0 + 1 ∧
    GStreamerLibavH264.check (fun s => .ok s)
        (fun _ _ m => ((.ok () : Except GErr Unit), m + 1)) true
        (GStreamerLibavH264.check (fun s => .ok s)
          (fun _ _ m => ((.ok () : Except GErr Unit), m + 1)) true [] 0).2.1
        (GStreamerLibavH264.check (fun s => .ok s)
          (fun _ _ m => ((.ok () : Except GErr Unit), m + 1)) true [] 0).2.2 =
      ((GStreamerLibavH264.check (fun s => .ok s)
          (fun _ _ m => ((.ok () : Except GErr Unit), m + 1)) true [] 0).1,
       (GStreamerLibavH264.check (fun s => .ok s)
          (fun _ _ m => ((.ok () : Except GErr Unit), m + 1)) true [] 0).2.1,
       (GStreamerLibavH264.check (fun s => .ok s)
          (fun _ _ m => ((.ok () : Except GErr Unit), m + 1)) true [] 0).2.2) :=
  check_memoized GStreamerLibavH264 (fun s => .ok s) (fun _ _ => .ok ()) true [] 0
    "gst-launch-1.0"
    ["gst-launch-1.0", "appsrc", "num-buffers=0", "!", "h264parse", "!",
     "avdec_h264", "!", "fakesink"]
    rfl rfl (by decide)

/-- A character that is inert for the shell lexer's quoting machinery:
neither a single quote, nor a double quote, nor a backslash.  File paths
made of such characters (whitespace included) never change the quoting
mode of the lexer. -/
def plainChar (c : Char) : Prop := c ≠ '\'' ∧ c ≠ '"' ∧ c ≠ '\\'

instance (c : Char) : Decidable (plainChar c) := by
  unfold plainChar
  infer_instance

theorem plainChar_append {l1 l2 : List Char} (h1 : ∀ c ∈ l1, plainChar c)
    (h2 : ∀ c ∈ l2, plainChar c) : ∀ c ∈ l1 ++ l2, plainChar c := by
  intro c hc
  rcases List.mem_append.mp hc with h | h
  exacts [h1 c h, h2 c h]

/-- Processing a quoting-inert character from the plain mode keeps the
lexer in the plain mode. -/
theorem lexStep_mode_norm (s : LexState) (c : Char) (hm : s.mode = .norm)
    (hc : plainChar c) : (lexStep s c).mode = .norm := by
  obtain ⟨h1, h2, h3⟩ := hc
  unfold lexStep
  rw [hm]
  by_cases hw : isShWs c = true
  · simp only [hw, if_true]
    cases hacc : s.acc with
    | some w => rfl
    | none => exact hm
  · simp only [hw, Bool.false_eq_true, if_false, h1, h2, h3, if_neg]

/-- Processing a list of quoting-inert characters from the plain mode ends
in the plain mode. -/
theorem lexRun_mode_norm (l : List Char) (s : LexState) (h : ∀ c ∈ l, plainChar c)
    (hm : s.mode = .norm) : (lexRun s l).mode = .norm := by
  induction l generalizing s with
  | nil => exact hm
  | cons c l ih =>
    simp only [lexRun, List.foldl_cons]
    exact ih (lexStep s c) (fun x hx => h x (List.mem_cons_of_mem c hx))
      (lexStep_mode_norm s c hm (h c (List.mem_cons_self c l)))

/-- From the plain mode, a second consecutive space is absorbed: the lexer
state after two spaces equals the state after one. -/
theorem lexStep_space (s : LexState) (hm : s.mode = .norm) :
    lexStep (lexStep s ' ') ' ' = lexStep s ' ' := by
  cases hacc : s.acc with
  | some w =>
    have h1 : lexStep s ' ' = { mode := .norm, acc := none, out := s.out ++ [w] } := by
      unfold lexStep
      rw [hm, hacc]
      rfl
    rw [h1]
    rfl
  | none =>
    have h1 : lexStep s ' ' = s := by
      unfold lexStep
      rw [hm, hacc]
      rfl
    rw [h1]
    exact h1

/-- Running the lexer over an appended list factors through the state after
the left part. -/
theorem lexRun_append (s : LexState) (a b : List Char) :
    lexRun s (a ++ b) = lexRun (lexRun s a) b := by
  simp [lexRun, List.foldl_append]

theorem lexRun_cons (s : LexState) (c : Char) (l : List Char) :
    lexRun s (c :: l) = lexRun (lexStep s c) l := rfl

/-- Collapsing a doubled space after a quoting-inert left part does not
change the lexer's final state. -/
theorem lexRun_collapse (a b : List Char) (s : LexState)
    (h : (lexRun s a).mode = .norm) :
    lexRun s (a ++ ' ' :: ' ' :: b) = lexRun s (a ++ ' ' :: b) := by
  rw [lexRun_append, lexRun_append]
  simp only [lexRun_cons]
  rw [lexStep_space _ h]

/-- Invariant carried by the lexer over quoting-inert input: plain mode, a
nonempty accumulated word when one is open, and only nonempty finished
words. -/
def GoodSt (s : LexState) : Prop :=
  s.mode = .norm ∧ (∀ w, s.acc = some w → w ≠ []) ∧ ∀ w ∈ s.out, w ≠ []

theorem lexStep_good (s : LexState) (c : Char) (h : GoodSt s) (hc : plainChar c) :
    GoodSt (lexStep s c) := by
  obtain ⟨hm, hacc, hout⟩ := h
  obtain ⟨h1, h2, h3⟩ := hc
  unfold lexStep
  rw [hm]
  by_cases hw : isShWs c = true
  · simp only [hw, if_true]
    cases hq : s.acc with
    | some w =>
      refine ⟨rfl, by simp, ?_⟩
      intro w' hw'
      rcases List.mem_append.mp hw' with h | h
      · exact hout w' h
      · rw [List.mem_singleton] at h
        subst h
        exact hacc w' hq
    | none => exact ⟨hm, hacc, hout⟩
  · simp only [hw, Bool.false_eq_true, if_false, h1, h2, h3, if_neg]
    refine ⟨rfl, ?_, hout⟩
    intro w hw'
    simp only [Option.some.injEq] at hw'
    subst hw'
    simp

theorem lexRun_good (l : List Char) (s : LexState) (h : GoodSt s)
    (hl : ∀ c ∈ l, plainChar c) : GoodSt (lexRun s l) := by
  induction l generalizing s with
  | nil => exact h
  | cons c l ih =>
    simp only [lexRun, List.foldl_cons]
    exact ih (lexStep s c) (lexStep_good s c h (hl c (List.mem_cons_self c l)))
      (fun x hx => hl x (List.mem_cons_of_mem c hx))

/-- Splitting a string of quoting-inert characters yields only nonempty
argv tokens. -/
theorem shlexSplit_no_empty (s : String) (h : ∀ c ∈ s.data, plainChar c)
    (toks : List String) (hs : shlexSplit s = .ok toks) : ∀ t ∈ toks, t ≠ "" := by
  have hg : GoodSt (lexRun lexInit s.data) :=
    lexRun_good s.data lexInit ⟨rfl, by simp [lexInit], by simp [lexInit]⟩ h
  obtain ⟨hm, hacc, hout⟩ := hg
  unfold shlexSplit lexFinish at hs
  rw [hm] at hs
  cases hq : (lexRun lexInit s.data).acc with
  | some w =>
    rw [hq] at hs
    injection hs with hs
    subst hs
    intro t ht
    rcases List.mem_map.mp ht with ⟨w', hw', rfl⟩
    intro hcon
    have hw0 : w' = [] := congrArg String.data hcon
    rcases List.mem_append.mp hw' with h' | h'
    · exact hout w' h' hw0
    · rw [List.mem_singleton] at h'
      subst h'
      exact hacc w' hq hw0
  | none =>
    rw [hq] at hs
    injection hs with hs
    subst hs
    intro t ht
    rcases List.mem_map.mp ht with ⟨w', hw', rfl⟩
    intro hcon
    exact hout w' hw' (congrArg String.data hcon)

/-- The caps argument gen_pipeline passes to the template: the family-A
override appends the videoconvert stage and the format token, the family-B
base implementation passes the caps attribute unchanged. -/
def capsFor (d : GstDecoder) (f : PixelFormat) : String :=
  match d.family with
  | .gst10 => d.caps ++ " ! videoconvert dither=none ! video/x-raw,format=" ++ f.to_gst
  | .gst010 => d.caps

/-- Both gen_pipeline implementations are the template applied to the
command, the decoder fragment, and the family-dependent caps. -/
theorem gen_pipeline_eq_tpl (d : GstDecoder) (i o : String) (f : PixelFormat) :
    d.gen_pipeline i o f = PIPELINE_TPL d.cmd i d.decoder_bin (capsFor d f) o := by
  unfold GstDecoder.gen_pipeline GstDecoder.gen_pipeline_10 GstDecoder.gen_pipeline_base capsFor
  cases d.family <;> rfl

/-- Strip leading and trailing shell whitespace from a string; used to
write the single-spaced comparison pipeline for the padded decoder
fragments. -/
def trimWs (s : String) : String :=
  String.mk (((s.data.dropWhile fun c => isShWs c).reverse.dropWhile fun c => isShWs c).reverse)

/-- The descriptor with its decoder fragment stripped of the leading and
trailing space padding: generating from it gives the equivalent pipeline
written with single spaces. -/
def trimBin (d : GstDecoder) : GstDecoder := { d with decoder_bin := trimWs d.decoder_bin }

/-- The character-list shape of the template around a padded fragment: the
quoting-inert head up to the first separator, two spaces, the fragment
core, two spaces, and the rest. -/
theorem tpl_pad_data (cmd core caps i o : String) :
    (PIPELINE_TPL cmd i (" " ++ core ++ " ") caps o).data =
      (cmd.data ++ " filesrc location=".data ++ i.data ++ [' ', '!']) ++
        ' ' :: ' ' :: (core.data ++ ' ' :: ' ' ::
          ('!' :: ' ' :: (caps.data ++ " ! filesink location=".data ++ o.data))) := by
  have e1 : (" ! " : String).data = ' ' :: '!' :: ' ' :: [] := rfl
  have e2 : (" " : String).data = [' '] := rfl
  unfold PIPELINE_TPL
  simp only [String.data_append, e1, e2, List.append_assoc, List.cons_append,
    List.nil_append, List.singleton_append]

/-- The character-list shape of the template around an unpadded fragment. -/
theorem tpl_core_data (cmd core caps i o : String) :
    (PIPELINE_TPL cmd i core caps o).data =
      (cmd.data ++ " filesrc location=".data ++ i.data ++ [' ', '!']) ++
        ' ' :: (core.data ++ ' ' ::
          ('!' :: ' ' :: (caps.data ++ " ! filesink location=".data ++ o.data))) := by
  have e1 : (" ! " : String).data = ' ' :: '!' :: ' ' :: [] := rfl
  unfold PIPELINE_TPL
  simp only [String.data_append, e1, List.append_assoc, List.cons_append,
    List.nil_append, List.singleton_append]

/-- Core collapse argument: around a quoting-inert head and fragment core,
the doubled spaces produced by the padding lex identically to single
spaces. -/
theorem lexRun_pad (A core B : List Char) (hA : ∀ c ∈ A, plainChar c)
    (hcore : ∀ c ∈ core, plainChar c) :
    lexRun lexInit (A ++ ' ' :: ' ' :: (core ++ ' ' :: ' ' :: B)) =
      lexRun lexInit (A ++ ' ' :: (core ++ ' ' :: B)) := by
  have h1 : (lexRun lexInit A).mode = .norm := lexRun_mode_norm A lexInit hA rfl
  have c1 := lexRun_collapse A (core ++ ' ' :: ' ' :: B) lexInit h1
  have h2 : (lexRun lexInit ((A ++ [' ']) ++ core)).mode = .norm :=
    lexRun_mode_norm _ lexInit
      (plainChar_append (plainChar_append hA (by decide)) hcore) rfl
  have c2 := lexRun_collapse ((A ++ [' ']) ++ core) B lexInit h2
  have e1 : A ++ ' ' :: (core ++ ' ' :: ' ' :: B) =
      ((A ++ [' ']) ++ core) ++ ' ' :: ' ' :: B := by
    simp
  have e2 : A ++ ' ' :: (core ++ ' ' :: B) = ((A ++ [' ']) ++ core) ++ ' ' :: B := by
    simp
  rw [c1, e1, c2, ← e2]

/-- Splitting the template with a space-padded fragment equals splitting
it with the bare fragment core, for quoting-inert command, core and input
path. -/
theorem split_tpl_pad (cmd core caps i o : String)
    (hcmd : ∀ c ∈ cmd.data, plainChar c) (hi : ∀ c ∈ i.data, plainChar c)
    (hcore : ∀ c ∈ core.data, plainChar c) :
    shlexSplit (PIPELINE_TPL cmd i (" " ++ core ++ " ") caps o) =
      shlexSplit (PIPELINE_TPL cmd i core caps o) := by
  unfold shlexSplit
  rw [tpl_pad_data, tpl_core_data]
  congr 1
  exact lexRun_pad _ _ _
    (plainChar_append (plainChar_append (plainChar_append hcmd (by decide)) hi) (by decide))
    hcore

/-- For a descriptor whose decoder fragment is its trimmed core padded with
one space on each side, the generated pipeline splits into exactly the argv
of the single-spaced pipeline. -/
theorem split_pad_descriptor (d : GstDecoder) (i o : String) (f : PixelFormat)
    (hbin : d.decoder_bin = " " ++ trimWs d.decoder_bin ++ " ")
    (hcmd : ∀ c ∈ d.cmd.data, plainChar c)
    (hcore : ∀ c ∈ (trimWs d.decoder_bin).data, plainChar c)
    (hi : ∀ c ∈ i.data, plainChar c) :
    shlexSplit (d.gen_pipeline i o f) = shlexSplit ((trimBin d).gen_pipeline i o f) := by
  have htpl : (trimBin d).gen_pipeline i o f =
      PIPELINE_TPL d.cmd i (trimWs d.decoder_bin) (capsFor d f) o :=
    gen_pipeline_eq_tpl (trimBin d) i o f
  rw [gen_pipeline_eq_tpl d i o f, htpl]
  generalize hg : trimWs d.decoder_bin = core at hbin hcore ⊢
  rw [hbin]
  exact split_tpl_pad d.cmd core (capsFor d f) i o hcmd hi hcore

/-- A pipeline generated from quoting-inert descriptor fields and paths
consists of quoting-inert characters only. -/
theorem plain_pipeline (d : GstDecoder) (i o : String) (f : PixelFormat)
    (hcmd : ∀ c ∈ d.cmd.data, plainChar c) (hbin : ∀ c ∈ d.decoder_bin.data, plainChar c)
    (hcaps : ∀ c ∈ d.caps.data, plainChar c)
    (hi : ∀ c ∈ i.data, plainChar c) (ho : ∀ c ∈ o.data, plainChar c) :
    ∀ c ∈ (d.gen_pipeline i o f).data, plainChar c := by
  have hfmt : ∀ c ∈ f.to_gst.data, plainChar c := by cases f <;> decide
  have hcf : ∀ c ∈ (capsFor d f).data, plainChar c := by
    unfold capsFor
    cases d.family
    · simp only [String.data_append]
      exact plainChar_append (plainChar_append hcaps (by decide)) hfmt
    · exact hcaps
  rw [gen_pipeline_eq_tpl]
  unfold PIPELINE_TPL
  simp only [String.data_append]
  exact plainChar_append (plainChar_append (plainChar_append (plainChar_append
    (plainChar_append (plainChar_append (plainChar_append (plainChar_append
      hcmd (by decide)) hi) (by decide)) hbin) (by decide)) hcf) (by decide)) ho

/-- C10: for every registered decoder descriptor and quoting-inert input
and output paths, shell-word-splitting the generated pipeline yields the
same argv token list as splitting the equivalent pipeline whose decoder
fragment carries no space padding, and the split produces no empty token:
the executed argv is insensitive to the fragment's space padding. -/
theorem registry_split_padding (d : GstDecoder) (hd : d ∈ registry) (i o : String)
    (hi : ∀ c ∈ i.data, plainChar c) (ho : ∀ c ∈ o.data, plainChar c) (f : PixelFormat) :
    shlexSplit (d.gen_pipeline i o f) = shlexSplit ((trimBin d).gen_pipeline i o f) ∧
    ∀ toks, shlexSplit (d.gen_pipeline i o f) = .ok toks → ∀ t ∈ toks, t ≠ "" := by
  have hfields : d.decoder_bin = " " ++ trimWs d.decoder_bin ++ " " ∧
      (∀ c ∈ d.cmd.data, plainChar c) ∧ (∀ c ∈ (trimWs d.decoder_bin).data, plainChar c) ∧
      (∀ c ∈ d.decoder_bin.data, plainChar c) ∧ ∀ c ∈ d.caps.data, plainChar c := by
    fin_cases hd <;> exact ⟨by decide, by decide, by decide, by decide, by decide⟩
  obtain ⟨hbin, hcmd, hcore, hbinp, hcaps⟩ := hfields
  refine ⟨split_pad_descriptor d i o f hbin hcmd hcore hi, ?_⟩
  intro toks hs
  exact shlexSplit_no_empty _ (plain_pipeline d i o f hcmd hbinp hcaps hi ho) toks hs

/-- C10 witness: the padding insensitivity applied to the first registered
decoder at concrete quoting-inert paths. -/
theorem registry_split_padding_witness :
    shlexSplit (GStreamerLibavH264.gen_pipeline "in.bin" "out.raw" .i420) =
      shlexSplit ((trimBin GStreamerLibavH264).gen_pipeline "in.bin" "out.raw" .i420) :=
  (registry_split_padding GStreamerLibavH264 (by decide) "in.bin" "out.raw"
    (by decide) (by decide) .i420).1

/-- The pattern p occurs as a contiguous block inside l. -/
def Substr (p l : List Char) : Prop := ∃ s t, l = s ++ p ++ t

/-- l begins with the block p. -/
def StartsWith (p l : List Char) : Prop := ∃ t, l = p ++ t

/-- l ends with the block p. -/
def EndsWith (p l : List Char) : Prop := ∃ s, l = s ++ p

/-- Boolean test for StartsWith. -/
def startsB : List Char → List Char → Bool
  | [], _ => true
  | _ :: _, [] => false
  | a :: p, b :: l => a == b && startsB p l

/-- Boolean test for Substr. -/
def occursB (p : List Char) : List Char → Bool
  | [] => p.isEmpty
  | b :: l => startsB p (b :: l) || occursB p l

theorem startsB_iff : ∀ p l : List Char, startsB p l = true ↔ StartsWith p l
  | [], l => by simp [startsB, StartsWith]
  | a :: p, [] => by simp [startsB, StartsWith]
  | a :: p, b :: l => by
    simp only [startsB, Bool.and_eq_true, beq_iff_eq]
    rw [startsB_iff p l]
    constructor
    · rintro ⟨rfl, t, rfl⟩
      exact ⟨t, rfl⟩
    · rintro ⟨t, h⟩
      rw [List.cons_append] at h
      injection h with h1 h2
      exact ⟨h1.symm, t, h2⟩

theorem occursB_iff : ∀ p l : List Char, occursB p l = true ↔ Substr p l
  | p, [] => by
    cases p with
    | nil => simp [occursB, Substr, List.isEmpty]
    | cons a p => simp [occursB, Substr, List.isEmpty]
  | p, b :: l => by
    simp only [occursB, Bool.or_eq_true]
    rw [startsB_iff, occursB_iff p l]
    constructor
    · rintro (⟨t, ht⟩ | ⟨s, t, ht⟩)
      · exact ⟨[], t, by simpa using ht⟩
      · exact ⟨b :: s, t, by rw [ht]; rfl⟩
    · rintro ⟨s, t, h⟩
      cases s with
      | nil => exact .inl ⟨t, by simpa using h⟩
      | cons x s =>
        right
        rw [List.cons_append, List.cons_append] at h
        injection h with h1 h2
        exact ⟨s, t, h2⟩

instance (p l : List Char) : Decidable (StartsWith p l) :=
  decidable_of_iff (startsB p l = true) (startsB_iff p l)

instance (p l : List Char) : Decidable (Substr p l) :=
  decidable_of_iff (occursB p l = true) (occursB_iff p l)

theorem endsWith_iff_reverse (q a : List Char) :
    EndsWith q a ↔ StartsWith q.reverse a.reverse := by
  constructor
  · rintro ⟨s, rfl⟩
    exact ⟨s.reverse, by simp⟩
  · rintro ⟨t, h⟩
    refine ⟨t.reverse, ?_⟩
    have h2 := congrArg List.reverse h
    simpa [List.reverse_append] using h2

instance (q a : List Char) : Decidable (EndsWith q a) :=
  decidable_of_iff _ (endsWith_iff_reverse q a).symm

/-- An occurrence inside an appended list lies in the left part, in the
right part, or straddles the boundary with a nonempty piece on each side. -/
theorem substr_append_cases (p a b : List Char) (h : Substr p (a ++ b)) :
    Substr p a ∨ Substr p b ∨
      ∃ p1 p2, p = p1 ++ p2 ∧ p1 ≠ [] ∧ p2 ≠ [] ∧ EndsWith p1 a ∧ StartsWith p2 b := by
  induction a generalizing p with
  | nil => exact .inr (.inl (by simpa using h))
  | cons x a ih =>
    obtain ⟨s, t, hst⟩ := h
    cases s with
    | nil =>
      simp only [List.nil_append] at hst
      cases p with
      | nil => exact .inl ⟨[], x :: a, rfl⟩
      | cons y p =>
        rw [List.cons_append, List.cons_append] at hst
        injection hst with h1 h2
        subst h1
        rcases List.append_eq_append_iff.mp h2 with ⟨a', ha, hb⟩ | ⟨c', hc, hd⟩
        · cases a' with
          | nil =>
            left
            refine ⟨[], [], ?_⟩
            rw [List.append_nil] at ha
            simp [ha]
          | cons z a' =>
            right; right
            refine ⟨x :: a, z :: a', ?_, by simp, by simp, ⟨[], rfl⟩, ⟨t, hb⟩⟩
            rw [ha]
            rfl
        · left
          exact ⟨[], c', by rw [hc]; rfl⟩
    | cons y s =>
      rw [List.cons_append, List.append_assoc, List.cons_append] at hst
      injection hst with h1 h2
      have hsub : Substr p (a ++ b) := ⟨s, t, by rw [h2, List.append_assoc]⟩
      rcases ih p hsub with h | h | ⟨p1, p2, hp, hn1, hn2, he, hsB⟩
      · left
        obtain ⟨s', t', rfl⟩ := h
        exact ⟨x :: s', t', rfl⟩
      · exact .inr (.inl h)
      · right; right
        obtain ⟨s', rfl⟩ := he
        exact ⟨p1, p2, hp, hn1, hn2, ⟨x :: s', rfl⟩, hsB⟩

/-- Take, drop and length facts for a straddling split of the pattern. -/
theorem straddle_facts {p p1 p2 : List Char} (hp : p = p1 ++ p2) (hn1 : p1 ≠ [])
    (hn2 : p2 ≠ []) :
    p1 = p.take p1.length ∧ p2 = p.drop p1.length ∧ 0 < p1.length ∧
      p1.length < p.length := by
  subst hp
  refine ⟨(List.take_left p1 p2).symm, (List.drop_left p1 p2).symm,
    List.length_pos.mpr hn1, ?_⟩
  rw [List.length_append]
  exact Nat.lt_add_of_pos_right (List.length_pos.mpr hn2)

/-- A pattern that occurs in none of the chunks of a chain C1, i, C2, o,
whose proper heads never close at the end of C1 or C2, and whose proper
tails never open at the head of C2, does not occur in the chained list at
all.  The boundary conditions are decidable for a concrete pattern and
concrete C1, C2, so only occurrence in the symbolic paths i and o must be
excluded by hypothesis. -/
theorem not_substr_chain (p C1 C2 iDat oDat : List Char)
    (h1 : ¬ Substr p C1) (h3 : ¬ Substr p C2) (hC2ne : C2 ≠ [])
    (e1 : ∀ k, k < p.length → 0 < k → ¬ EndsWith (p.take k) C1)
    (s2 : ∀ k, k < p.length → 0 < k → (p.drop k).head? ≠ C2.head?)
    (e3 : ∀ k, k < p.length → 0 < k → ¬ EndsWith (p.take k) C2)
    (hi : ¬ Substr p iDat) (ho : ¬ Substr p oDat) :
    ¬ Substr p (C1 ++ (iDat ++ (C2 ++ oDat))) := by
  intro h
  rcases substr_append_cases p C1 _ h with h | h | ⟨p1, p2, hp, hn1, hn2, he, hsB⟩
  · exact h1 h
  · rcases substr_append_cases p iDat _ h with h | h | ⟨p1, p2, hp, hn1, hn2, he, hsB⟩
    · exact hi h
    · rcases substr_append_cases p C2 _ h with h | h | ⟨p1, p2, hp, hn1, hn2, he, hsB⟩
      · exact h3 h
      · exact ho h
      · obtain ⟨hk1, hk2, hpos, hlen⟩ := straddle_facts hp hn1 hn2
        exact e3 p1.length hlen hpos (hk1 ▸ he)
    · obtain ⟨hk1, hk2, hpos, hlen⟩ := straddle_facts hp hn1 hn2
      have hhead : p2.head? = C2.head? := by
        obtain ⟨t, ht⟩ := hsB
        cases p2 with
        | nil => exact absurd rfl hn2
        | cons z p2' =>
          cases hC2 : C2 with
          | nil => exact absurd hC2 hC2ne
          | cons c C2' =>
            rw [hC2, List.cons_append, List.cons_append] at ht
            injection ht with hz _
            simp [hz]
      exact s2 p1.length hlen hpos (hk2 ▸ hhead)
  · obtain ⟨hk1, hk2, hpos, hlen⟩ := straddle_facts hp hn1 hn2
    exact e1 p1.length hlen hpos (hk1 ▸ he)

/-- The family-B pipeline decomposes into a chain of a concrete head, the
input path, a concrete middle, and the output path. -/
theorem genB_data_chain (d : GstDecoder) (i o : String) (f : PixelFormat)
    (hf : d.family = .gst010) :
    (d.gen_pipeline i o f).data =
      (d.cmd ++ " filesrc location=").data ++ (i.data ++
        ((" ! " ++ d.decoder_bin ++ " ! " ++ d.caps ++ " ! filesink location=").data ++
          o.data)) := by
  rw [gen_pipeline_eq_tpl]
  unfold capsFor
  rw [hf]
  unfold PIPELINE_TPL
  simp [String.data_append, List.append_assoc]

/-- C2: the version-family-B (GStreamer 0.10) builder ignores the requested
output format entirely — any two formats give byte-identical strings for
all paths — and its pipeline contains no videoconvert element and no
format-negotiation token, provided the paths themselves do not carry those
letter sequences. -/
theorem genB_no_videoconvert (d : GstDecoder) (hd : d ∈ registry)
    (hfam : d.family = .gst010) (i o : String) (f : PixelFormat)
    (hiv : ¬ Substr "videoconvert".data i.data)
    (hov : ¬ Substr "videoconvert".data o.data)
    (hif : ¬ Substr "format=".data i.data)
    (hof : ¬ Substr "format=".data o.data) :
    ¬ Substr "videoconvert".data (d.gen_pipeline i o f).data ∧
    ¬ Substr "format=".data (d.gen_pipeline i o f).data ∧
    ∀ f1 f2, d.gen_pipeline i o f1 = d.gen_pipeline i o f2 := by
  have hd2 : d = FluendoH265Gst010Decoder ∨ d = FluendoH264Gst010Decoder := by
    fin_cases hd <;>
      first
        | exact absurd hfam (by decide)
        | exact .inl rfl
        | exact .inr rfl
  obtain rfl | rfl := hd2
  · refine ⟨?_, ?_, fun f1 f2 => rfl⟩
    · rw [genB_data_chain _ i o f rfl]
      exact not_substr_chain "videoconvert".data _ _ i.data o.data (by decide) (by decide)
        (by decide) (by decide) (by decide) (by decide) hiv hov
    · rw [genB_data_chain _ i o f rfl]
      exact not_substr_chain "format=".data _ _ i.data o.data (by decide) (by decide)
        (by decide) (by decide) (by decide) (by decide) hif hof
  · refine ⟨?_, ?_, fun f1 f2 => rfl⟩
    · rw [genB_data_chain _ i o f rfl]
      exact not_substr_chain "videoconvert".data _ _ i.data o.data (by decide) (by decide)
        (by decide) (by decide) (by decide) (by decide) hiv hov
    · rw [genB_data_chain _ i o f rfl]
      exact not_substr_chain "format=".data _ _ i.data o.data (by decide) (by decide)
        (by decide) (by decide) (by decide) (by decide) hif hof

/-- C2 witness: the Fluendo H.265 GStreamer 0.10 decoder at concrete paths
generates a pipeline with no videoconvert stage. -/
theorem genB_no_videoconvert_witness :
    ¬ Substr "videoconvert".data
      ((FluendoH265Gst010Decoder.gen_pipeline "in.bin" "out.raw" .i420).data) :=
  (genB_no_videoconvert FluendoH265Gst010Decoder (by decide) (by decide)
    "in.bin" "out.raw" .i420 (by decide) (by decide) (by decide) (by decide)).1
